import Mathlib

/-!
Verification of the holland2stay watcher engine.

The development shallowly embeds the core of the program:

* the closed city enumeration and the listing record with full-attribute
  equality (after src/api.rs, `City` and `House`);
* the subscription registry, a finite map from chat ids to watched city
  sets, modelled as an association list mirroring the `HashMap<ChatId,
  HashSet<City>>` operations used by the command handler
  (after src/main.rs, `answer`);
* the poll cycle `get_houses_and_notify` and the surrounding loop step of
  `main`, parametrised over the fetch function so that fetch success and
  failure can be analysed (after src/main.rs);
* an event trace of one poll cycle recording lock acquisition and release,
  the network fetch and every outbound send, used to analyse which locks
  are held across the blocking operations (after src/main.rs, the guard
  scopes of `observers_mutex.lock()` and `houses_clone.lock()`);
* the bounded timer channel of capacity 2 and the loop's wait phase
  `while let None = rx.recv().await` which consumes exactly one tick
  (after src/main.rs, `setup_periodic_check_timer` and `main`).
-/

set_option autoImplicit false

/-- The closed set of cities supported by the feed (src/api.rs, `City`). -/
inductive City where
  | delft
  | eindhoven
  | denHaag
  | zoetermeer
  | rijswijk
  | rotterdam
deriving DecidableEq, Repr

/-- A listing; equality and hashing in the source use the full attribute
tuple (src/api.rs, `House`, which derives `Hash, PartialEq, Eq` on all
fields).  The `reqwest::Url` field is represented by its textual form. -/
structure House where
  name : String
  url : Option String
  city : City
  size_meter_squared : Option String
  floor : Option String
  minimum_stay : Option String
  price : Option String
  start_date : Option String
  contract_duration : Option String
deriving DecidableEq, Repr

/-- Fetch failure taxonomy (src/api.rs, `Holland2StayError`). -/
inductive FetchError where
  | reqwestError
  | conversionError
  | serdeJsonError
  | fromStrError
deriving DecidableEq, Repr

/-- The subscription registry: chat id to watched city set, as stored in
the `HashMap<ChatId, HashSet<City>>` behind `ObserverMutex`
(src/main.rs).  An association list is the standard model of the hash
map; chat ids (`i64` in teloxide) are modelled as integers. -/
abbrev Registry := List (Int × Finset City)

/-- Lookup of a subscriber's entry, as in `observers.get(&chat_id)`:
absent subscribers yield `none`, present ones their watch set. -/
def citiesOf : Registry → Int → Option (Finset City)
  | [], _ => none
  | e :: rest, id => if e.1 = id then some e.2 else citiesOf rest id

/-- `observers.entry(chat_id).or_default().insert(city)` from the
`Watch` arm of `answer` (src/main.rs): update the existing entry or
create one holding just the new city. -/
def watchInsert : Registry → Int → City → Registry
  | [], id, c => [(id, {c})]
  | e :: rest, id, c =>
      if e.1 = id then (e.1, insert c e.2) :: rest
      else e :: watchInsert rest id c

/-- `observers.entry(chat_id).or_default().remove(&city)` from the
`Unwatch` arm of `answer` (src/main.rs): an absent subscriber gets a
fresh empty entry; the boolean reports whether the city was present. -/
def unwatchEntry : Registry → Int → City → Registry × Bool
  | [], id, _ => ([(id, ∅)], false)
  | e :: rest, id, c =>
      if e.1 = id then ((e.1, e.2.erase c) :: rest, decide (c ∈ e.2))
      else
        let p := unwatchEntry rest id c
        (e :: p.1, p.2)

/-- `observers.remove(&chat_id)` from the `Unsubscribe` arm of `answer`
(src/main.rs): drop the entry and return the prior watch set. -/
def unsubscribeAll : Registry → Int → Registry × Option (Finset City)
  | [], _ => ([], none)
  | e :: rest, id =>
      if e.1 = id then (rest, some e.2)
      else
        let p := unsubscribeAll rest id
        (e :: p.1, p.2)

/-- The fold computing `all_cities` in `get_houses_and_notify`
(src/main.rs): the union of every subscriber's watched cities. -/
def allWatchedCities (reg : Registry) : Finset City :=
  reg.foldl (fun acc e => acc ∪ e.2) ∅

/-- Outbound messages, tagged by their destination chat id; one
constructor per distinct `bot.send_message` call site in src/main.rs. -/
inductive Msg where
  | newHouse (dst : Int) (h : House)
  | fetchFailed (dst : Int)
  | helpMsg (dst : Int)
  | watchConfirm (dst : Int) (c : City)
  | onWatchHouse (dst : Int) (h : House)
  | unwatchOkMsg (dst : Int) (c : City)
  | unwatchAlreadyMsg (dst : Int) (c : City)
  | unsubscribedMsg (dst : Int) (cs : Finset City)
  | unsubscribedNoneMsg (dst : Int)
  | subsListMsg (dst : Int) (cs : Finset City)
  | subsNoneMsg (dst : Int)
deriving DecidableEq

/-- The sends for a single new house: one message per registry entry
whose watch set contains the house's city — the inner loop of the fan-out
in `get_houses_and_notify` (src/main.rs). -/
def sendsFor (reg : Registry) (h : House) : List Msg :=
  (reg.filter (fun e => decide (h.city ∈ e.2))).map (fun e => Msg.newHouse e.1 h)

/-- The full new-listing fan-out: the outer loop over
`new_houses.difference(&old_houses)` in `get_houses_and_notify`
(src/main.rs). -/
def notifyNew (reg : Registry) : List House → List Msg
  | [] => []
  | h :: rest => sendsFor reg h ++ notifyNew reg rest

/-- One poll cycle, `get_houses_and_notify` (src/main.rs): skip when the
registry is empty, otherwise fetch the union of watched cities; on
success dedup the fetched listings into a set, fan the difference with
the old baseline out to watchers and return the new baseline; on failure
send a failure notice to every registered subscriber and return no new
baseline.  The fetch is passed in as a function so both outcomes can be
analysed. -/
def get_houses_and_notify (reg : Registry)
    (fetchFn : Finset City → Except FetchError (List House))
    (old : List House) : Option (List House) × List Msg :=
  if reg.isEmpty then (none, [])
  else
    match fetchFn (allWatchedCities reg) with
    | Except.ok fetched =>
        let newHouses := fetched.dedup
        (some newHouses, notifyNew reg (newHouses.filter (fun h => decide (¬ h ∈ old))))
    | Except.error _ => (none, reg.map (fun e => Msg.fetchFailed e.1))

/-- One iteration of the poll loop in `main` (src/main.rs): the baseline
is replaced only when the cycle returns a new set
(`if let Some(new_houses) = ... { *houses = new_houses }`). -/
def pollStep (reg : Registry)
    (fetchFn : Finset City → Except FetchError (List House))
    (baseline : List House) : List House × List Msg :=
  match get_houses_and_notify reg fetchFn baseline with
  | (some nb, msgs) => (nb, msgs)
  | (none, msgs) => (baseline, msgs)

/-- The diff engine as the spec words it: set difference of the current
fetch against the prior baseline under full-attribute equality
(src/main.rs, `new_houses.difference(&old_houses)`). -/
def newListings (prior current : Finset House) : Finset House :=
  current \ prior

/-- C5: the diff engine is set difference by full-attribute equality,
order-independent (it is a function of the two finite sets) and
idempotent (`newListings S S = ∅`), and the poll cycle's list-level
computation `fetched.dedup.filter (not in old)` realises exactly that
set difference. -/
theorem c5_diff_engine_is_set_difference :
    (∀ prior current : Finset House, ∀ h : House,
        h ∈ newListings prior current ↔ h ∈ current ∧ ¬ h ∈ prior) ∧
    (∀ S : Finset House, newListings S S = ∅) ∧
    (∀ fetched old : List House,
        (fetched.dedup.filter (fun h => decide (¬ h ∈ old))).toFinset
          = newListings old.toFinset fetched.toFinset) := by
  refine ⟨fun prior current h => Finset.mem_sdiff, fun S => Finset.sdiff_self S, ?_⟩
  intro fetched old
  ext h
  simp [newListings, List.mem_filter, List.mem_dedup, Finset.mem_sdiff]

/-- Counting a new-house message in a block of sends that all carry a
different house yields zero. -/
theorem count_sendsFor_ne (reg : Registry) (id : Int) (h h0 : House)
    (hne : ¬ h = h0) : (sendsFor reg h).count (Msg.newHouse id h0) = 0 := by
  rw [List.count_eq_zero]
  intro hmem
  rcases List.mem_map.mp hmem with ⟨e, _, he⟩
  rw [Msg.newHouse.injEq] at he
  exact hne he.2

/-- Counting the message for house `h` aimed at `id` in the block of
sends for `h` counts the chat id among the filtered registry keys. -/
theorem count_sendsFor_eq (reg : Registry) (id : Int) (h : House) :
    (sendsFor reg h).count (Msg.newHouse id h)
      = ((reg.filter (fun e => decide (h.city ∈ e.2))).map Prod.fst).count id := by
  induction reg with
  | nil => rfl
  | cons e rest ih =>
      by_cases hc : h.city ∈ e.2 <;>
        simp [sendsFor, List.filter_cons, hc, List.count_cons,
          Msg.newHouse.injEq] at ih ⊢ <;>
        exact ih

/-- The keys of a filtered registry stay duplicate-free. -/
theorem filtered_keys_nodup (reg : Registry)
    (hk : (reg.map Prod.fst).Nodup) (p : Int × Finset City → Bool) :
    ((reg.filter p).map Prod.fst).Nodup :=
  ((List.filter_sublist reg).map Prod.fst).nodup hk

/-- With duplicate-free registry keys, a subscriber with entry
`(id, cs)` appears among the keys watching city `c` exactly when
`c ∈ cs`. -/
theorem mem_filtered_keys (reg : Registry)
    (hk : (reg.map Prod.fst).Nodup) (id : Int) (cs : Finset City)
    (hent : (id, cs) ∈ reg) (c : City) :
    id ∈ (reg.filter (fun e => decide (c ∈ e.2))).map Prod.fst ↔ c ∈ cs := by
  constructor
  · intro hmem
    rcases List.mem_map.mp hmem with ⟨e, hef, heid⟩
    have hsplit := List.mem_filter.mp hef
    have hee : e = (id, cs) :=
      List.inj_on_of_nodup_map hk hsplit.1 hent heid
    rw [hee] at hsplit
    simpa using hsplit.2
  · intro hc
    exact List.mem_map.mpr
      ⟨(id, cs), List.mem_filter.mpr ⟨hent, by simpa⟩, rfl⟩

/-- Central counting lemma for the fan-out: with duplicate-free registry
keys and a duplicate-free new-listing list, each (listing, subscriber)
message appears exactly once when the subscriber's filtered key is
present, never otherwise. -/
theorem count_notifyNew (reg : Registry) (fresh : List House)
    (hk : (reg.map Prod.fst).Nodup) (hf : fresh.Nodup)
    (id : Int) (h : House) :
    (notifyNew reg fresh).count (Msg.newHouse id h)
      = if h ∈ fresh ∧
           id ∈ (reg.filter (fun e => decide (h.city ∈ e.2))).map Prod.fst
        then 1 else 0 := by
  induction fresh with
  | nil => simp [notifyNew]
  | cons h1 rest ih =>
      have hnd := List.nodup_cons.mp hf
      have ihr := ih hnd.2
      by_cases heq : h1 = h
      · subst heq
        have hrest0 : (notifyNew reg rest).count (Msg.newHouse id h1) = 0 := by
          rw [ihr]
          simp [hnd.1]
        rw [notifyNew, List.count_append, hrest0, count_sendsFor_eq,
          List.count_eq_of_nodup (filtered_keys_nodup reg hk _)]
        have hh1 : h1 ∈ h1 :: rest := List.mem_cons_self h1 rest
        by_cases hid :
            id ∈ List.map Prod.fst (List.filter (fun e => decide (h1.city ∈ e.2)) reg)
        · simp [hid, hh1]
        · simp [hid]
      · rw [notifyNew, List.count_append, count_sendsFor_ne reg id h1 h heq,
          ihr]
        have hmemiff : h ∈ h1 :: rest ↔ h ∈ rest := by
          constructor
          · intro hh
            rcases List.mem_cons.mp hh with h' | h'
            · exact absurd h'.symm heq
            · exact h'
          · exact fun hh => List.mem_cons_of_mem _ hh
        simp only [hmemiff, Nat.zero_add]

/-- C2: in a successful cycle, a listing present in the fetch and absent
from the prior baseline is notified exactly once to each subscriber
whose watchlist contains its city, and never to a subscriber without a
registry entry. -/
theorem c2_new_listing_fanout (reg : Registry)
    (hk : (reg.map Prod.fst).Nodup)
    (fetched old : List House)
    (f : Finset City → Except FetchError (List House))
    (hf : f (allWatchedCities reg) = Except.ok fetched)
    (h : House) (hmem : h ∈ fetched) (hold : ¬ h ∈ old) :
    (∀ id : Int, ∀ cs : Finset City, (id, cs) ∈ reg →
        (get_houses_and_notify reg f old).2.count (Msg.newHouse id h)
          = if h.city ∈ cs then 1 else 0) ∧
    (∀ id : Int, ¬ id ∈ reg.map Prod.fst →
        (get_houses_and_notify reg f old).2.count (Msg.newHouse id h) = 0) := by
  by_cases hemp : reg.isEmpty
  · have hnil : reg = [] := List.isEmpty_iff.mp hemp
    subst hnil
    constructor
    · intro id cs hent
      exact absurd hent (List.not_mem_nil _)
    · intro id _
      simp [get_houses_and_notify]
  · have hmsgs : (get_houses_and_notify reg f old).2
        = notifyNew reg (fetched.dedup.filter (fun h => decide (¬ h ∈ old))) := by
      simp [get_houses_and_notify, hemp, hf]
    have hfreshnd : (fetched.dedup.filter (fun h => decide (¬ h ∈ old))).Nodup :=
      (List.nodup_dedup fetched).filter _
    have hfreshmem : h ∈ fetched.dedup.filter (fun h => decide (¬ h ∈ old)) :=
      List.mem_filter.mpr ⟨(List.mem_dedup).mpr hmem, by simpa⟩
    constructor
    · intro id cs hent
      rw [hmsgs, count_notifyNew reg _ hk hfreshnd,
        if_congr (and_congr_right fun _ => mem_filtered_keys reg hk id cs hent h.city)
          rfl rfl]
      simp [hmem, hold]
    · intro id hid
      rw [hmsgs, count_notifyNew reg _ hk hfreshnd, if_neg]
      intro hcontra
      rcases List.mem_map.mp hcontra.2 with ⟨e, hef, heid⟩
      exact hid (List.mem_map.mpr ⟨e, (List.mem_filter.mp hef).1, heid⟩)

/-- Counting a failure notice aimed at `id` in the failure fan-out
counts `id` among the registry keys. -/
theorem count_fetchFailed_map (lst : Registry) (id : Int) :
    (lst.map (fun e => Msg.fetchFailed e.1)).count (Msg.fetchFailed id)
      = (lst.map Prod.fst).count id := by
  induction lst with
  | nil => rfl
  | cons e rest ih => simp [List.count_cons, Msg.fetchFailed.injEq, ih]

/-- C9: in a cycle whose fetch fails, every subscriber with a registry
entry receives exactly one failure notice, whatever cities it watches
(including none), and nobody else receives one. -/
theorem c9_fetch_failure_notices (reg : Registry)
    (hk : (reg.map Prod.fst).Nodup) (old : List House)
    (f : Finset City → Except FetchError (List House)) (e : FetchError)
    (hf : f (allWatchedCities reg) = Except.error e) (id : Int) :
    (get_houses_and_notify reg f old).2.count (Msg.fetchFailed id)
      = if id ∈ reg.map Prod.fst then 1 else 0 := by
  by_cases hemp : reg.isEmpty
  · have hnil : reg = [] := List.isEmpty_iff.mp hemp
    subst hnil
    simp [get_houses_and_notify]
  · have hmsgs : (get_houses_and_notify reg f old).2
        = reg.map (fun e => Msg.fetchFailed e.1) := by
      simp [get_houses_and_notify, hemp, hf]
    rw [hmsgs, count_fetchFailed_map, List.count_eq_of_nodup hk]

/-- C1: a cycle whose fetch fails leaves the baseline exactly as it was,
and the next successful cycle diffs against that unchanged baseline. -/
theorem c1_failed_fetch_preserves_baseline (reg1 reg2 : Registry)
    (e : FetchError) (f1 f2 : Finset City → Except FetchError (List House))
    (b fetched : List House)
    (h1 : f1 (allWatchedCities reg1) = Except.error e)
    (h2 : f2 (allWatchedCities reg2) = Except.ok fetched) :
    (pollStep reg1 f1 b).1 = b ∧
    pollStep reg2 f2 (pollStep reg1 f1 b).1 = pollStep reg2 f2 b ∧
    (reg2.isEmpty = false →
      (pollStep reg2 f2 (pollStep reg1 f1 b).1).2
        = notifyNew reg2 (fetched.dedup.filter (fun h => decide (¬ h ∈ b)))) := by
  have hfirst : (pollStep reg1 f1 b).1 = b := by
    by_cases hemp : reg1.isEmpty
    · simp [pollStep, get_houses_and_notify, hemp]
    · simp [pollStep, get_houses_and_notify, hemp, h1]
  refine ⟨hfirst, by rw [hfirst], ?_⟩
  intro hne
  rw [hfirst]
  simp [pollStep, get_houses_and_notify, hne, h2]

/-- The fan-out instrumented with a per-send outcome, mirroring
`bot.send_message(..).await.log_err()` (src/main.rs): the result of each
send is recorded and the loop continues regardless. -/
def sendsForOutcomes (sendOk : Int → House → Bool) (reg : Registry)
    (h : House) : List (Msg × Bool) :=
  (reg.filter (fun e => decide (h.city ∈ e.2))).map
    (fun e => (Msg.newHouse e.1 h, sendOk e.1 h))

/-- The full instrumented fan-out over the list of new listings. -/
def notifyNewOutcomes (sendOk : Int → House → Bool) (reg : Registry) :
    List House → List (Msg × Bool)
  | [] => []
  | h :: rest => sendsForOutcomes sendOk reg h ++ notifyNewOutcomes sendOk reg rest

/-- Dropping the outcomes from the instrumented fan-out gives exactly
the plain fan-out, whatever the send outcomes were. -/
theorem map_fst_notifyNewOutcomes (sendOk : Int → House → Bool)
    (reg : Registry) (fresh : List House) :
    (notifyNewOutcomes sendOk reg fresh).map Prod.fst = notifyNew reg fresh := by
  induction fresh with
  | nil => rfl
  | cons h rest ih =>
      simp [notifyNewOutcomes, notifyNew, sendsForOutcomes, sendsFor,
        List.map_append, List.map_map, ih]

/-- C8: send failures during the fan-out are isolated.  The attempted
(listing, subscriber) sends do not depend on which sends fail, they
coincide with the plain fan-out, and no pair is attempted twice (no
retry). -/
theorem c8_send_failures_isolated (sendOk sendOk2 : Int → House → Bool)
    (reg : Registry) (fresh : List House)
    (hk : (reg.map Prod.fst).Nodup) (hf : fresh.Nodup) :
    ((notifyNewOutcomes sendOk reg fresh).map Prod.fst
        = (notifyNewOutcomes sendOk2 reg fresh).map Prod.fst) ∧
    ((notifyNewOutcomes sendOk reg fresh).map Prod.fst = notifyNew reg fresh) ∧
    (∀ id : Int, ∀ h : House,
        (notifyNew reg fresh).count (Msg.newHouse id h) ≤ 1) := by
  refine ⟨?_, map_fst_notifyNewOutcomes sendOk reg fresh, ?_⟩
  · rw [map_fst_notifyNewOutcomes, map_fst_notifyNewOutcomes]
  · intro id h
    rw [count_notifyNew reg fresh hk hf]
    split
    · exact Nat.le_refl 1
    · exact Nat.zero_le 1

/-- The inbound command grammar (src/main.rs, `enum Command`). -/
inductive BotCommand where
  | help
  | watch (c : City)
  | unwatch (c : City)
  | unsubscribe
  | subscriptions
deriving DecidableEq

/-- The command handler `answer` (src/main.rs): each arm performs the
registry mutation of the source and produces the replies in the order
the source sends them.  The baseline snapshot is passed in as the list
the `houses` mutex holds. -/
def answer (reg : Registry) (houses : List House) (chatId : Int) :
    BotCommand → Registry × List Msg
  | BotCommand.help => (reg, [Msg.helpMsg chatId])
  | BotCommand.watch c =>
      (watchInsert reg chatId c,
        Msg.watchConfirm chatId c ::
          (houses.filter (fun h => decide (h.city = c))).map
            (fun h => Msg.onWatchHouse chatId h))
  | BotCommand.unwatch c =>
      let p := unwatchEntry reg chatId c
      (p.1, [if p.2 then Msg.unwatchOkMsg chatId c else Msg.unwatchAlreadyMsg chatId c])
  | BotCommand.unsubscribe =>
      let p := unsubscribeAll reg chatId
      match p.2 with
      | some cs => (p.1, [Msg.unsubscribedMsg chatId cs])
      | none => (p.1, [Msg.unsubscribedNoneMsg chatId])
  | BotCommand.subscriptions =>
      match citiesOf reg chatId with
      | some cs => (reg, [Msg.subsListMsg chatId cs])
      | none => (reg, [Msg.subsNoneMsg chatId])

/-- Watching always results in an entry whose set holds the new city on
top of whatever was watched before. -/
theorem citiesOf_watchInsert (reg : Registry) (id : Int) (c : City) :
    citiesOf (watchInsert reg id c) id
      = some (insert c ((citiesOf reg id).getD ∅)) := by
  induction reg with
  | nil => simp [watchInsert, citiesOf]
  | cons e rest ih =>
      by_cases he : e.1 = id
      · simp [watchInsert, citiesOf, he]
      · simp [watchInsert, citiesOf, he, ih]

/-- The registry insert of the `Watch` arm is idempotent. -/
theorem watchInsert_idem (reg : Registry) (id : Int) (c : City) :
    watchInsert (watchInsert reg id c) id c = watchInsert reg id c := by
  induction reg with
  | nil => simp [watchInsert]
  | cons e rest ih =>
      by_cases he : e.1 = id
      · simp [watchInsert, he, Finset.insert_idem]
      · simp [watchInsert, he, ih]

/-- C6: handling `Watch(city)` inserts the city idempotently, replies
with the confirmation and then one message per baseline listing in that
city (each such listing exactly once), no matter whether a diff cycle
has run since the baseline was captured. -/
theorem c6_watch_sends_baseline (reg : Registry) (houses : List House)
    (hnd : houses.Nodup) (id : Int) (c : City) :
    (watchInsert (watchInsert reg id c) id c = watchInsert reg id c) ∧
    (∃ cs : Finset City,
        citiesOf (answer reg houses id (BotCommand.watch c)).1 id = some cs ∧
          c ∈ cs) ∧
    ((answer reg houses id (BotCommand.watch c)).2
      = Msg.watchConfirm id c ::
          (houses.filter (fun h => decide (h.city = c))).map
            (fun h => Msg.onWatchHouse id h)) ∧
    (∀ h0 : House,
        (answer reg houses id (BotCommand.watch c)).2.count (Msg.onWatchHouse id h0)
          = if h0 ∈ houses ∧ h0.city = c then 1 else 0) := by
  refine ⟨watchInsert_idem reg id c, ?_, rfl, ?_⟩
  · refine ⟨insert c ((citiesOf reg id).getD ∅), ?_, Finset.mem_insert_self c _⟩
    exact citiesOf_watchInsert reg id c
  · intro h0
    have hcnt : ∀ lst : List House,
        (lst.map (fun h => Msg.onWatchHouse id h)).count (Msg.onWatchHouse id h0)
          = lst.count h0 := by
      intro lst
      induction lst with
      | nil => rfl
      | cons h rest ih =>
          simp [List.count_cons, Msg.onWatchHouse.injEq, ih]
    have : (answer reg houses id (BotCommand.watch c)).2.count (Msg.onWatchHouse id h0)
        = ((houses.filter (fun h => decide (h.city = c))).map
            (fun h => Msg.onWatchHouse id h)).count (Msg.onWatchHouse id h0) := by
      simp [answer, List.count_cons]
    rw [this, hcnt, List.count_eq_of_nodup (hnd.filter _)]

    simp [List.mem_filter, and_comm]

/-- The `Unwatch` arm applied to an absent subscriber appends a fresh
empty entry and reports the city as not previously watched. -/
theorem unwatchEntry_of_absent (reg : Registry) (id : Int) (c : City)
    (hab : citiesOf reg id = none) :
    unwatchEntry reg id c = (reg ++ [(id, ∅)], false) := by
  induction reg with
  | nil => simp [unwatchEntry]
  | cons e rest ih =>
      by_cases he : e.1 = id
      · simp [citiesOf, he] at hab
      · simp [citiesOf, he] at hab
        simp [unwatchEntry, he, ih hab]

/-- Lookup passes over a prefix that does not hold the key. -/
theorem citiesOf_append_right (reg l : Registry) (id : Int)
    (hab : citiesOf reg id = none) :
    citiesOf (reg ++ l) id = citiesOf l id := by
  induction reg with
  | nil => rfl
  | cons e rest ih =>
      by_cases he : e.1 = id
      · simp [citiesOf, he] at hab
      · simp [citiesOf, he] at hab ⊢
        exact ih hab

/-- C10: `Unwatch(city)` for an unknown subscriber creates an empty
entry instead of leaving the registry unchanged; afterwards the
subscriber counts as registered: `Subscriptions` reports an empty
subscription list rather than the no-subscriptions reply, and the
poll cycle's emptiness check no longer skips the fetch (a failing fetch
now produces failure notices instead of the skip result). -/
theorem c10_unwatch_absent_creates_entry (reg : Registry) (id : Int)
    (c : City) (hab : citiesOf reg id = none) (old : List House)
    (e : FetchError) :
    ((unwatchEntry reg id c).1 = reg ++ [(id, ∅)]) ∧
    ((unwatchEntry reg id c).2 = false) ∧
    (citiesOf (unwatchEntry reg id c).1 id = some ∅) ∧
    ((answer (unwatchEntry reg id c).1 old id BotCommand.subscriptions).2
      = [Msg.subsListMsg id ∅]) ∧
    ((unwatchEntry reg id c).1.isEmpty = false) ∧
    (get_houses_and_notify (unwatchEntry reg id c).1
        (fun _ => Except.error e) old ≠ (none, [])) := by
  have hu := unwatchEntry_of_absent reg id c hab
  have hco : citiesOf (unwatchEntry reg id c).1 id = some ∅ := by
    rw [hu, citiesOf_append_right reg _ id hab]
    simp [citiesOf]
  have hne : (unwatchEntry reg id c).1.isEmpty = false := by
    rw [hu]
    simp
  refine ⟨by rw [hu], by rw [hu], hco, ?_, hne, ?_⟩
  · simp [answer, hco]
  · intro hcontra
    rw [hu] at hne
    simp [get_houses_and_notify, hne] at hcontra
    rw [hu] at hcontra
    simp at hcontra

/-- Events of one poll cycle: lock acquisition and release of the two
shared resources, the network fetch and each outbound send.  They mirror
the guard scopes in src/main.rs: `main` takes the houses (snapshot) lock
around the whole cycle, and `get_houses_and_notify` takes the observers
(registry) lock before the emptiness check and holds it to the end of
the function. -/
inductive Event where
  | lockRegistry
  | unlockRegistry
  | lockSnapshot
  | unlockSnapshot
  | fetchCall (cities : Finset City)
  | sendMsg (m : Msg)
deriving DecidableEq

/-- Change of the registry-lock depth caused by one event. -/
def regDelta : Event → Int
  | Event.lockRegistry => 1
  | Event.unlockRegistry => -1
  | _ => 0

/-- Change of the snapshot-lock depth caused by one event. -/
def snapDelta : Event → Int
  | Event.lockSnapshot => 1
  | Event.unlockSnapshot => -1
  | _ => 0

/-- The blocking operations: the network fetch and the outbound sends. -/
def isIoEvent : Event → Bool
  | Event.fetchCall _ => true
  | Event.sendMsg _ => true
  | _ => false

/-- Annotate every event of a trace with the registry-lock and
snapshot-lock depths in force when it happens. -/
def depthsAlong : Int → Int → List Event → List (Event × Int × Int)
  | _, _, [] => []
  | r, s, e :: es => (e, r, s) :: depthsAlong (r + regDelta e) (s + snapDelta e) es

/-- The event trace of one poll-loop iteration (src/main.rs, `main` and
`get_houses_and_notify`): the snapshot lock is taken first, then inside
the cycle the registry lock; if there are observers the fetch runs and
the cycle's messages are sent, still inside both guards; the registry
guard drops at the end of `get_houses_and_notify` and the snapshot
guard at the end of the surrounding block. -/
def pollCycleTrace (reg : Registry)
    (fetchFn : Finset City → Except FetchError (List House))
    (old : List House) : List Event :=
  Event.lockSnapshot :: Event.lockRegistry ::
    ((if reg.isEmpty then []
      else Event.fetchCall (allWatchedCities reg) ::
        (get_houses_and_notify reg fetchFn old).2.map Event.sendMsg)
      ++ [Event.unlockRegistry, Event.unlockSnapshot])

/-- C4: the fetch event occurs in a cycle exactly when the registry is
non-empty, and then its argument is exactly the union of all watched
cities; the union fold computes precisely the set of cities some
subscriber watches; with an empty registry the cycle does nothing and
its trace does not depend on the fetch function at all. -/
theorem c4_fetch_called_with_union (reg : Registry)
    (f g : Finset City → Except FetchError (List House)) (old : List House) :
    (∀ cities : Finset City,
        Event.fetchCall cities ∈ pollCycleTrace reg f old
          ↔ reg.isEmpty = false ∧ cities = allWatchedCities reg) ∧
    (∀ x : City, x ∈ allWatchedCities reg ↔ ∃ e ∈ reg, x ∈ e.2) ∧
    (reg.isEmpty = true →
      get_houses_and_notify reg f old = (none, []) ∧
        pollCycleTrace reg f old = pollCycleTrace reg g old) := by
  refine ⟨?_, ?_, ?_⟩
  · intro cities
    by_cases hemp : reg.isEmpty
    · simp [pollCycleTrace, hemp]
    · simp [pollCycleTrace, hemp, List.mem_append, List.mem_map,
        Event.fetchCall.injEq]
  · have key : ∀ (l : Registry) (acc : Finset City) (x : City),
        x ∈ l.foldl (fun acc e => acc ∪ e.2) acc ↔ x ∈ acc ∨ ∃ e ∈ l, x ∈ e.2 := by
      intro l
      induction l with
      | nil => simp
      | cons e rest ih =>
          intro acc x
          simp [List.foldl_cons, ih, Finset.mem_union]
          tauto
    intro x
    rw [allWatchedCities, key reg ∅ x]
    simp
  · intro hemp
    constructor
    · simp [get_houses_and_notify, hemp]
    · simp [pollCycleTrace, hemp]

/-- A block of events that touch no lock keeps the depth annotations of
the surrounding context. -/
theorem depthsAlong_append_flat (mid rest : List Event) (r s : Int)
    (hflat : ∀ e ∈ mid, regDelta e = 0 ∧ snapDelta e = 0) :
    depthsAlong r s (mid ++ rest)
      = mid.map (fun e => (e, r, s)) ++ depthsAlong r s rest := by
  induction mid with
  | nil => rfl
  | cons e es ih =>
      have hdr := (hflat e (List.mem_cons_self e es)).1
      have hds := (hflat e (List.mem_cons_self e es)).2
      have ihres := ih (fun x hx => hflat x (List.mem_cons_of_mem e hx))
      simp [depthsAlong, hdr, hds, ihres]

/-- C3 is corrected by this theorem: the poll cycle performs its network
fetch and its entire fan-out while holding BOTH the registry lock and
the snapshot lock (depth 1 each), for every registry, fetch outcome and
baseline. -/
theorem c3_amended_both_locks_held_during_io (reg : Registry)
    (f : Finset City → Except FetchError (List House)) (old : List House)
    (p : Event × Int × Int)
    (hp : p ∈ depthsAlong 0 0 (pollCycleTrace reg f old))
    (hio : isIoEvent p.1 = true) :
    p.2.1 = 1 ∧ p.2.2 = 1 := by
  have hflat : ∀ e ∈ (if reg.isEmpty then []
      else Event.fetchCall (allWatchedCities reg) ::
        (get_houses_and_notify reg f old).2.map Event.sendMsg),
      regDelta e = 0 ∧ snapDelta e = 0 := by
    intro e he
    by_cases hemp : reg.isEmpty
    · rw [if_pos hemp] at he
      exact absurd he (List.not_mem_nil e)
    · rw [if_neg hemp] at he
      rcases List.mem_cons.mp he with h' | h'
      · subst h'
        exact ⟨rfl, rfl⟩
      · rcases List.mem_map.mp h' with ⟨m, _, hm⟩
        subst hm
        exact ⟨rfl, rfl⟩
  rw [pollCycleTrace] at hp
  simp only [depthsAlong] at hp
  rw [depthsAlong_append_flat _ _ _ _ hflat] at hp
  simp only [depthsAlong] at hp
  rcases List.mem_cons.mp hp with h' | hp2
  · subst h'
    simp [isIoEvent] at hio
  rcases List.mem_cons.mp hp2 with h' | hp3
  · subst h'
    simp [isIoEvent] at hio
  rcases List.mem_append.mp hp3 with h' | h'
  · rcases List.mem_map.mp h' with ⟨e, _, hep⟩
    subst hep
    constructor <;> norm_num [regDelta, snapDelta]
  · rcases List.mem_cons.mp h' with h'' | h''
    · subst h''
      simp [isIoEvent] at hio
    · rcases List.mem_cons.mp h'' with h3 | h3
      · subst h3
        simp [isIoEvent] at hio
      · exact absurd h3 (List.not_mem_nil p)

/-- A sample registry with one subscriber watching Delft. -/
def regSample : Registry := [((1 : Int), ({City.delft} : Finset City))]

/-- C3 counterexample: at a concrete one-subscriber registry with a
failing fetch, the cycle trace contains an IO event (the fetch itself)
performed at non-zero lock depth, so the claim that no lock is held
across the fetch and fan-out is false. -/
theorem c3_counterexample_lock_free_io_fails :
    ¬ (∀ p ∈ depthsAlong 0 0
          (pollCycleTrace regSample
            (fun _ => Except.error FetchError.reqwestError) []),
        isIoEvent p.1 = true → p.2.1 = 0 ∧ p.2.2 = 0) := by
  decide

/-- Capacity of the timer channel, `mpsc::channel(2)` in
`setup_periodic_check_timer` (src/main.rs). -/
def channelCap : Nat := 2

/-- One timer tick arriving at the channel: buffered if there is room,
otherwise the sender blocks and the tick is not buffered (the buffer is
modelled by the number of pending ticks). -/
def trySendTick (q : Nat) : Nat :=
  if q < channelCap then q + 1 else q

/-- A burst of `k` timer ticks arriving while the channel holds `q`. -/
def sendTicks : Nat → Nat → Nat
  | q, 0 => q
  | q, Nat.succ k => sendTicks (trySendTick q) k

/-- The wait phase of the poll loop,
`while let None = on_check_houses.recv().await {}` (src/main.rs):
`recv` on the never-closed channel yields the first buffered tick
immediately (`some` of the remaining buffer) or blocks until a fresh
tick arrives (`none`).  Exactly one tick is consumed either way. -/
def recvOneTick : Nat → Option Nat
  | 0 => none
  | Nat.succ n => some n

/-- The poll loop against a schedule of tick bursts, one burst per
cycle: each entry of the result tells whether the loop had to wait for
a fresh timer tick before the next cycle (`true`) or started it
immediately on a buffered tick (`false`). -/
def loopSteps : Nat → List Nat → List Bool
  | _, [] => []
  | q, k :: rest =>
      match recvOneTick (sendTicks q k) with
      | some q2 => false :: loopSteps q2 rest
      | none => true :: loopSteps 0 rest

/-- C7 counterexample: after one long cycle during which three ticks
fired, the buffer holds two ticks and the next two cycles start
immediately back-to-back, so the excess ticks are not drained once the
cycle finishes. -/
theorem c7_counterexample_ticks_not_drained :
    loopSteps 0 [3, 0, 0] = [false, false, true] ∧
      ¬ (∀ b ∈ loopSteps 0 [3, 0, 0], b = true) := by
  decide

/-- C7 is corrected by this theorem: the tick buffer never exceeds the
channel capacity of 2, the wait phase consumes exactly one buffered
tick (never draining the rest), whenever at least one tick is buffered
at the end of a cycle the next cycle starts immediately, and only an
empty buffer makes the loop wait for a fresh tick. -/
theorem c7_amended_one_tick_per_cycle :
    (∀ q k : Nat, q ≤ channelCap → sendTicks q k ≤ channelCap) ∧
    (∀ q : Nat, 0 < q → recvOneTick q = some (q - 1)) ∧
    (∀ (q k : Nat) (rest : List Nat), 0 < sendTicks q k →
        loopSteps q (k :: rest) = false :: loopSteps (sendTicks q k - 1) rest) ∧
    (∀ (q k : Nat) (rest : List Nat), sendTicks q k = 0 →
        loopSteps q (k :: rest) = true :: loopSteps 0 rest) := by
  have hts : ∀ q : Nat, q ≤ channelCap → trySendTick q ≤ channelCap := by
    intro q hq
    simp only [trySendTick, channelCap] at hq ⊢
    split <;> omega
  refine ⟨?_, ?_, ?_, ?_⟩
  · intro q k
    induction k generalizing q with
    | zero => intro hq; exact hq
    | succ k ih => intro hq; exact ih (trySendTick q) (hts q hq)
  · intro q hq
    match q, hq with
    | Nat.succ n, _ => rfl
  · intro q k rest hpos
    match hs : sendTicks q k, hpos with
    | Nat.succ n, _ => simp [loopSteps, hs, recvOneTick]
  · intro q k rest hz
    simp [loopSteps, hz, recvOneTick]

/-- A sample listing in Delft. -/
def houseA : House :=
  { name := "A", url := none, city := City.delft, size_meter_squared := none,
    floor := none, minimum_stay := none, price := none, start_date := none,
    contract_duration := none }

/-- A sample two-subscriber registry: chat 1 watches Delft, chat 2
watches Eindhoven. -/
def regTwo : Registry :=
  [((1 : Int), ({City.delft} : Finset City)),
   ((2 : Int), ({City.eindhoven} : Finset City))]

/-- A sample one-subscriber registry with an empty watchlist. -/
def regBare : Registry := [((5 : Int), (∅ : Finset City))]

/-- A fetch that always succeeds with the sample listing. -/
def fOkA : Finset City → Except FetchError (List House) :=
  fun _ => Except.ok [houseA]

/-- A fetch that always fails. -/
def fErr : Finset City → Except FetchError (List House) :=
  fun _ => Except.error FetchError.reqwestError

/-- A send oracle where every send succeeds. -/
def sendAllOk : Int → House → Bool := fun _ _ => true

/-- A send oracle where every send fails. -/
def sendAllFail : Int → House → Bool := fun _ _ => false

/-- Witness for C1 at a concrete failing then succeeding fetch. -/
theorem c1_witness :
    (fErr (allWatchedCities regSample) = Except.error FetchError.reqwestError) ∧
    (fOkA (allWatchedCities regSample) = Except.ok [houseA]) ∧
    ((pollStep regSample fErr []).1 = [] ∧
     pollStep regSample fOkA (pollStep regSample fErr []).1
       = pollStep regSample fOkA [] ∧
     (regSample.isEmpty = false →
       (pollStep regSample fOkA (pollStep regSample fErr []).1).2
         = notifyNew regSample
             (([houseA].dedup).filter (fun h => decide (¬ h ∈ ([] : List House)))))) :=
  ⟨rfl, rfl,
    c1_failed_fetch_preserves_baseline regSample regSample
      FetchError.reqwestError fErr fOkA [] [houseA] rfl rfl⟩

/-- Witness for C2 at the two-subscriber registry and one new listing. -/
theorem c2_witness :
    ((regTwo.map Prod.fst).Nodup) ∧
    (fOkA (allWatchedCities regTwo) = Except.ok [houseA]) ∧
    (houseA ∈ [houseA]) ∧
    (¬ houseA ∈ ([] : List House)) ∧
    ((∀ id : Int, ∀ cs : Finset City, (id, cs) ∈ regTwo →
        (get_houses_and_notify regTwo fOkA []).2.count (Msg.newHouse id houseA)
          = if houseA.city ∈ cs then 1 else 0) ∧
     (∀ id : Int, ¬ id ∈ regTwo.map Prod.fst →
        (get_houses_and_notify regTwo fOkA []).2.count (Msg.newHouse id houseA)
          = 0)) :=
  ⟨by decide, rfl, List.mem_cons_self houseA [], List.not_mem_nil houseA,
    c2_new_listing_fanout regTwo (by decide) [houseA] [] fOkA rfl houseA
      (List.mem_cons_self houseA []) (List.not_mem_nil houseA)⟩

/-- Witness for C9 at a registry whose only subscriber watches nothing. -/
theorem c9_witness :
    ((regBare.map Prod.fst).Nodup) ∧
    (fErr (allWatchedCities regBare) = Except.error FetchError.reqwestError) ∧
    ((get_houses_and_notify regBare fErr []).2.count (Msg.fetchFailed 5)
      = if (5 : Int) ∈ regBare.map Prod.fst then 1 else 0) :=
  ⟨by decide, rfl,
    c9_fetch_failure_notices regBare (by decide) [] fErr
      FetchError.reqwestError rfl 5⟩

/-- Witness for C6: watching Delft from an empty registry with a
one-listing baseline. -/
theorem c6_witness :
    (([houseA] : List House).Nodup) ∧
    ((watchInsert (watchInsert [] 1 City.delft) 1 City.delft
        = watchInsert [] 1 City.delft) ∧
     (∃ cs : Finset City,
        citiesOf (answer [] [houseA] 1 (BotCommand.watch City.delft)).1 1
            = some cs ∧ City.delft ∈ cs) ∧
     ((answer [] [houseA] 1 (BotCommand.watch City.delft)).2
        = Msg.watchConfirm 1 City.delft ::
            (([houseA] : List House).filter
                (fun h => decide (h.city = City.delft))).map
              (fun h => Msg.onWatchHouse 1 h)) ∧
     (∀ h0 : House,
        (answer [] [houseA] 1 (BotCommand.watch City.delft)).2.count
            (Msg.onWatchHouse 1 h0)
          = if h0 ∈ [houseA] ∧ h0.city = City.delft then 1 else 0)) :=
  ⟨List.nodup_singleton houseA,
    c6_watch_sends_baseline [] [houseA] (List.nodup_singleton houseA) 1
      City.delft⟩

/-- Witness for C8 with an all-succeeding and an all-failing oracle. -/
theorem c8_witness :
    ((regTwo.map Prod.fst).Nodup) ∧
    (([houseA] : List House).Nodup) ∧
    (((notifyNewOutcomes sendAllOk regTwo [houseA]).map Prod.fst
        = (notifyNewOutcomes sendAllFail regTwo [houseA]).map Prod.fst) ∧
     ((notifyNewOutcomes sendAllOk regTwo [houseA]).map Prod.fst
        = notifyNew regTwo [houseA]) ∧
     (∀ id : Int, ∀ h : House,
        (notifyNew regTwo [houseA]).count (Msg.newHouse id h) ≤ 1)) :=
  ⟨by decide, List.nodup_singleton houseA,
    c8_send_failures_isolated sendAllOk sendAllFail regTwo [houseA]
      (by decide) (List.nodup_singleton houseA)⟩

/-- Witness for C10: unwatching Delft as subscriber 7 on the empty
registry. -/
theorem c10_witness :
    (citiesOf [] 7 = none) ∧
    (((unwatchEntry [] 7 City.delft).1 = [] ++ [((7 : Int), (∅ : Finset City))]) ∧
     ((unwatchEntry [] 7 City.delft).2 = false) ∧
     (citiesOf (unwatchEntry [] 7 City.delft).1 7 = some ∅) ∧
     ((answer (unwatchEntry [] 7 City.delft).1 [] 7 BotCommand.subscriptions).2
        = [Msg.subsListMsg 7 ∅]) ∧
     ((unwatchEntry [] 7 City.delft).1.isEmpty = false) ∧
     (get_houses_and_notify (unwatchEntry [] 7 City.delft).1
          (fun _ => Except.error FetchError.serdeJsonError) [] ≠ (none, []))) :=
  ⟨rfl,
    c10_unwatch_absent_creates_entry [] 7 City.delft rfl []
      FetchError.serdeJsonError⟩

/-- The annotated fetch event of the sample trace. -/
def pSample : Event × Int × Int :=
  (Event.fetchCall ({City.delft} : Finset City), 1, 1)

/-- Witness for the corrected C3: in the concrete sample cycle the fetch
event is annotated with both lock depths equal to one. -/
theorem c3_amended_witness :
    (pSample ∈ depthsAlong 0 0 (pollCycleTrace regSample fErr [])) ∧
    (isIoEvent pSample.1 = true) ∧
    (pSample.2.1 = 1 ∧ pSample.2.2 = 1) :=
  ⟨by decide, rfl,
    c3_amended_both_locks_held_during_io regSample fErr [] pSample
      (by decide) rfl⟩

/-- Witness for C4 at the empty registry: the cycle is the skip result
and the trace ignores the fetch function. -/
theorem c4_witness :
    (([] : Registry).isEmpty = true) ∧
    (get_houses_and_notify ([] : Registry) fOkA [] = (none, []) ∧
      pollCycleTrace ([] : Registry) fOkA []
        = pollCycleTrace ([] : Registry) fErr []) :=
  ⟨rfl, (c4_fetch_called_with_union [] fOkA fErr []).2.2 rfl⟩

/-- Witness for the corrected C7 at concrete tick schedules. -/
theorem c7_witness :
    ((1 ≤ channelCap ∧ sendTicks 1 2 ≤ channelCap)) ∧
    ((0 < 2 ∧ recvOneTick 2 = some 1)) ∧
    ((0 < sendTicks 0 3 ∧
        loopSteps 0 [3, 1] = false :: loopSteps (sendTicks 0 3 - 1) [1])) ∧
    ((sendTicks 0 0 = 0 ∧ loopSteps 0 [0, 2] = true :: loopSteps 0 [2])) :=
  ⟨⟨by decide, c7_amended_one_tick_per_cycle.1 1 2 (by decide)⟩,
   ⟨by decide, c7_amended_one_tick_per_cycle.2.1 2 (by decide)⟩,
   ⟨by decide, c7_amended_one_tick_per_cycle.2.2.1 0 3 [1] (by decide)⟩,
   ⟨by decide, c7_amended_one_tick_per_cycle.2.2.2 0 0 [2] (by decide)⟩⟩
